import Mathlib

/-!
Verification of the jcus.link MCP resume-matching server against its
natural-language specification.  Each Python function relevant to the
frozen claims is shallowly embedded as an executable Lean definition:
dictionaries become structures with `Option` fields, `datetime` values
become rational time points, Python `float` arithmetic is modelled with
exact rationals (`ℚ`) except where a square root is inherently real,
and the `OrderedDict` underlying the resume cache becomes a list kept in
recency order (head = least recently used).
-/

namespace JcusLink

/-! ## Resume cache (`src/core/resume_cache.py`)

`ResumeCache` wraps an `OrderedDict[str, ResumeCacheEntry]`.  We model the
dictionary as a list of entries in recency order: the head is the least
recently used entry (the one `popitem(last=False)` removes) and the last
element is the most recently used. -/

structure ResumeCacheEntry where
  key : String
  resume_text : String
  summary : String
  match_rate : ℚ
  created_at : ℚ
  expires_at : ℚ
  metadata : List (String × String)
deriving DecidableEq, Repr

/-- `ResumeCacheEntry.is_expired`: `(now or _utcnow()) >= self.expires_at`. -/
def ResumeCacheEntry.is_expired (e : ResumeCacheEntry) (now : ℚ) : Bool :=
  decide (e.expires_at ≤ now)

/-- The cache's `OrderedDict` contents, least recently used first. -/
abbrev CacheState := List ResumeCacheEntry

/-- `self._entries.get(key)` on the ordered dictionary. -/
def lookupEntry (s : CacheState) (k : String) : Option ResumeCacheEntry :=
  s.find? (fun e => e.key == k)

/-- `self._entries.pop(key, None)` / the removal part of `move_to_end`:
drop the entry stored under `k` (keys are unique in a dict, so the filter
removes exactly that entry). -/
def removeKey (s : CacheState) (k : String) : CacheState :=
  s.filter (fun e => !(e.key == k))

/-- `ResumeCache._evict_if_needed`: `while len(self._entries) > self._max_entries:
self._entries.popitem(last=False)` — repeatedly drop the least recently
used (front) entry until at most `maxEntries` remain. -/
def evictIfNeeded (maxEntries : ℕ) (s : CacheState) : CacheState :=
  s.drop (s.length - maxEntries)

/-- `ResumeCache.get`: look the key up; a missing key returns `None`; an
expired entry is removed and reported missing; otherwise the entry is
moved to the most-recently-used end and returned.  The result pairs the
returned value with the updated dictionary contents. -/
def ResumeCache.get (s : CacheState) (k : String) (now : ℚ) :
    Option ResumeCacheEntry × CacheState :=
  match s.find? (fun e => e.key == k) with
  | none => (none, s)
  | some e =>
    if e.is_expired now then (none, removeKey s k)
    else (some e, removeKey s k ++ [e])

/-- `ResumeCache.set`: silently refuse an already-expired entry; otherwise
store the entry under its key (replacing any previous entry with that
key), move it to the most-recently-used end, and evict down to capacity. -/
def ResumeCache.set (maxEntries : ℕ) (s : CacheState) (e : ResumeCacheEntry)
    (now : ℚ) : CacheState :=
  if e.is_expired now then s
  else evictIfNeeded maxEntries (removeKey s e.key ++ [e])

/-- A cache operation together with the current time at which it runs. -/
inductive CacheOp where
  | opGet (k : String) (now : ℚ)
  | opSet (e : ResumeCacheEntry) (now : ℚ)

/-- Run one operation, keeping only the dictionary state. -/
def applyCacheOp (maxEntries : ℕ) (s : CacheState) : CacheOp → CacheState
  | .opGet k now => (ResumeCache.get s k now).2
  | .opSet e now => ResumeCache.set maxEntries s e now

/-- Run a sequence of cache operations. -/
def applyCacheOps (maxEntries : ℕ) (s : CacheState) (ops : List CacheOp) :
    CacheState :=
  ops.foldl (applyCacheOp maxEntries) s

/-- Concrete cache entry used by the witnesses, key `k1`. -/
def cacheEntry1 : ResumeCacheEntry :=
  { key := "k1", resume_text := "r1", summary := "", match_rate := 1,
    created_at := 0, expires_at := 100, metadata := [] }

/-- Concrete cache entry used by the witnesses, key `k2`. -/
def cacheEntry2 : ResumeCacheEntry :=
  { key := "k2", resume_text := "r2", summary := "", match_rate := 1,
    created_at := 0, expires_at := 100, metadata := [] }

/-- Concrete cache entry used by the witnesses, key `k3`. -/
def cacheEntry3 : ResumeCacheEntry :=
  { key := "k3", resume_text := "r3", summary := "", match_rate := 1,
    created_at := 0, expires_at := 100, metadata := [] }

/-! ## Domain schema (`src/schemas/domain_schema.py`) -/

/-- `ResumeMatch`: a vector-search result. -/
structure ResumeMatch where
  resume_id : String
  content : String
  skills : List String
  experience_years : ℤ
  similarity_score : ℚ
deriving DecidableEq, Repr

/-- `JobAnalysis`: the structured result of analyzing a job description. -/
structure JobAnalysis where
  required_skills : List String
  experience_level : String
  key_responsibilities : List String
  estimated_match_threshold : ℚ
deriving DecidableEq, Repr

/-- `MatchSummary` as built by `ResumeService.summarize_matches`. -/
structure MatchSummary where
  summary : String
  match_rate : ℚ
  match_rate_percent : ℤ
  matched_skills : List String
  missing_skills : List String
deriving DecidableEq, Repr

/-! ## Match summarization (`src/services/resume_service.py`,
`ResumeService.summarize_matches`)

`summarize_matches` first derives a `JobAnalysis` from the job description
(via the LLM service) and then combines it with the matches by a fixed
formula; we embed that second, purely computational part as a function of
the analysis and the match list. -/

/-- Python's built-in `round` to an integer: round half to even. -/
def pyRound (q : ℚ) : ℤ :=
  let f := ⌊q⌋
  let r := q - f
  if r < 1/2 then f
  else if 1/2 < r then f + 1
  else if Even f then f else f + 1

/-- Python's `str.lower()` restricted to ASCII case folding (character by
character; the skill names this system compares are ASCII). -/
def pyLower (s : String) : String :=
  String.mk (s.data.map Char.toLower)

/-- Lexicographic comparison of character lists by code point, Python's
ordering on strings. -/
def charListLeb : List Char → List Char → Bool
  | [], _ => true
  | _ :: _, [] => false
  | a :: as, b :: bs =>
    if a.toNat < b.toNat then true
    else if b.toNat < a.toNat then false
    else charListLeb as bs

/-- Python's `<=` on strings. -/
def pyStrLeb (a b : String) : Bool := charListLeb a.data b.data

/-- Python's `sorted` on a set of strings: the distinct elements in
increasing lexicographic order. -/
def pySortedSet (l : List String) : List String :=
  l.dedup.insertionSort (fun a b => pyStrLeb a b = true)

/-- The body of `ResumeService.summarize_matches` after the job analysis
has been obtained: lower-case the required skills and the union of all
match skills, intersect/diff them, average the similarity scores, blend
70% similarity average with 30% skill coverage (capped at 1.0) when any
required skill exists, and round the rate to an integer percent. -/
def summarizeMatchesCore (analysis : JobAnalysis) (ms : List ResumeMatch) :
    MatchSummary :=
  let required_skills : List String :=
    (analysis.required_skills.map pyLower).dedup
  let matched_skill_pool : List String :=
    ((ms.flatMap fun m => m.skills).map pyLower).dedup
  let matched_skills : List String :=
    pySortedSet (required_skills.filter (fun s => s ∈ matched_skill_pool))
  let missing_skills : List String :=
    pySortedSet (required_skills.filter (fun s => s ∉ matched_skill_pool))
  let similarity_avg : ℚ :=
    if ms.length ≠ 0 then
      ((ms.map fun m => m.similarity_score).sum) / ms.length
    else 0
  let match_rate : ℚ :=
    if required_skills.length ≠ 0 then
      min 1 (7/10 * similarity_avg +
        3/10 * ((matched_skills.length : ℚ) / required_skills.length))
    else similarity_avg
  let match_rate_percent : ℤ := pyRound (match_rate * 100)
  let summaryText : String :=
    if ms.length = 0 then
      "No strong matches found for this job description."
    else if required_skills.length ≠ 0 then
      "Match rate " ++ toString match_rate_percent ++ "% with " ++
        toString matched_skills.length ++ " of " ++
        toString required_skills.length ++ " required skills aligned."
    else
      "Match rate " ++ toString match_rate_percent ++
        "% based on semantic similarity."
  { summary := summaryText
    match_rate := match_rate
    match_rate_percent := match_rate_percent
    matched_skills := matched_skills
    missing_skills := missing_skills }

/-- The worked example's analysis: required skills `python` and `aws`. -/
def exampleAnalysis : JobAnalysis :=
  { required_skills := ["python", "aws"], experience_level := "Senior",
    key_responsibilities := [], estimated_match_threshold := 7/10 }

/-- The worked example's matches: skills `{python}` at 0.9 and `{go}` at 0.5. -/
def exampleMatches : List ResumeMatch :=
  [{ resume_id := "r1", content := "", skills := ["python"],
     experience_years := 5, similarity_score := 9/10 },
   { resume_id := "r2", content := "", skills := ["go"],
     experience_years := 3, similarity_score := 5/10 }]

/-! ## In-memory cosine similarity (`src/services/vector_service.py`)

Both in-memory `similarity_search` paths compute
`np.dot(q, r) / (np.linalg.norm(q) * np.linalg.norm(r))` with no guard on
the denominator.  Vectors are modelled as rational lists; the norms are
real square roots.  IEEE division by a zero denominator produces a
non-finite value (`nan` for `0/0`, `±inf` otherwise) instead of raising,
which we model as `none`. -/

/-- `np.dot` on equal-length vectors. -/
def npDot (q r : List ℚ) : ℚ := (List.zipWith (· * ·) q r).sum

/-- The sum of squares of a vector's components. -/
def sumSquares (v : List ℚ) : ℚ := (v.map fun x => x * x).sum

/-- `np.linalg.norm`: the Euclidean magnitude. -/
noncomputable def npLinalgNorm (v : List ℚ) : ℝ :=
  Real.sqrt (sumSquares v)

/-- The similarity value computed inside `similarity_search` for one
resume: the unguarded float division.  `none` stands for the non-finite
float (`nan` or `±inf`) that IEEE division yields when the product of the
magnitudes is zero; the zero test itself is decidable on the rational
inputs. -/
noncomputable def similaritySearchValue (q r : List ℚ) : Option ℝ :=
  if sumSquares q = 0 ∨ sumSquares r = 0 then none
  else some ((npDot q r : ℝ) / (npLinalgNorm q * npLinalgNorm r))

/-! ## Text chunking (`src/core/vector_database.py`,
`VectorDatabase._chunk_text`)

`_chunk_text` splits on whitespace with Python's `str.split()` and, when
the word count exceeds the chunk size, slides a window of `chunk_size`
words advancing by `chunk_size - overlap` words.  The embedding below is
faithful for `overlap < chunk_size` (the only regime in which the Python
`range` step is positive; the callers use 500/50). -/

/-- The code points Python's `str` methods treat as whitespace
(`str.isspace` / `str.split()` / `str.strip()`). -/
def pyIsSpaceCp (n : ℕ) : Bool :=
  decide ((9 ≤ n ∧ n ≤ 13) ∨ (28 ≤ n ∧ n ≤ 31) ∨ n = 32 ∨ n = 133 ∨
    n = 160 ∨ n = 5760 ∨ (8192 ≤ n ∧ n ≤ 8202) ∨ n = 8232 ∨ n = 8233 ∨
    n = 8239 ∨ n = 8287 ∨ n = 12288)

/-- Whitespace test on characters. -/
def pyIsSpaceChar (c : Char) : Bool := pyIsSpaceCp c.toNat

/-- Helper for `pySplit`: walk the characters, accumulating the current
word in reverse; whitespace ends the current word, and empty words are
never produced. -/
def pySplitAux : List Char → List Char → List (List Char)
  | [], cur => if cur.isEmpty then [] else [cur.reverse]
  | c :: cs, cur =>
    if pyIsSpaceChar c then
      if cur.isEmpty then pySplitAux cs [] else cur.reverse :: pySplitAux cs []
    else pySplitAux cs (c :: cur)

/-- Python's `str.split()` with no separator: split on runs of whitespace,
discarding empty tokens. -/
def pySplit (s : String) : List String :=
  (pySplitAux s.data []).map String.mk

/-- The start indices produced by `range(0, n, step)` for positive `step`. -/
def chunkStarts (n step : ℕ) : List ℕ :=
  (List.range ((n + step - 1) / step)).map (· * step)

/-- The word windows `words[i : i + size]` taken by `_chunk_text`'s loop. -/
def chunkWordWindows (ws : List String) (size ov : ℕ) : List (List String) :=
  (chunkStarts ws.length (size - ov)).map fun i => (ws.drop i).take size

/-- `VectorDatabase._chunk_text`: return the whole text as one chunk when
the word count is at most `size`; otherwise join each word window with
single spaces, keeping only non-empty chunks. -/
def chunkText (text : String) (size ov : ℕ) : List String :=
  let words := pySplit text
  if words.length ≤ size then [text]
  else
    ((chunkWordWindows words size ov).map fun w => " ".intercalate w).filter
      (fun c => c ≠ "")

/-! ## LLM service (`src/services/llm_service.py`)

Python values that may be either a string or a list of strings (the
payloads are JSON) are modelled by a sum type; `Option` models a missing
dictionary key. -/

/-- A JSON value that is either a string or a list of strings. -/
abbrev StrOrList := String ⊕ List String

/-- Python truthiness of an optional string (`None` and `""` are falsy). -/
def pyTruthyS : Option String → Bool
  | none => false
  | some s => !(s == "")

/-- Python `a or b` on optional strings. -/
def pyOrS (a b : Option String) : Option String :=
  if pyTruthyS a then a else b

/-- Python truthiness of an optional string-or-list value. -/
def pyTruthySL : Option StrOrList → Bool
  | none => false
  | some (.inl s) => !(s == "")
  | some (.inr l) => !l.isEmpty

/-- Python `a or b` on optional string-or-list values. -/
def pyOrSL (a b : Option StrOrList) : Option StrOrList :=
  if pyTruthySL a then a else b

/-- `_ensure_list`: `None` becomes `[]`, a list keeps its truthy items,
and any other value is wrapped in a singleton list. -/
def ensure_list : Option StrOrList → List String
  | none => []
  | some (.inr l) => l.filter (fun x => x ≠ "")
  | some (.inl s) => [s]

/-- One item of the `personal_attributes` payload. -/
structure AttributeItem where
  attribute_type : Option String := none
  description : Option String := none
  value : Option String := none
deriving DecidableEq, Repr

/-- The `data` dictionary of a `profile_data` entry, restricted to the
keys the local renderer reads. -/
structure EntryData where
  title : Option String := none
  position : Option String := none
  role : Option String := none
  company : Option String := none
  organization : Option String := none
  degree : Option String := none
  institution : Option String := none
  school : Option String := none
  name : Option String := none
  issuer : Option String := none
  skills : Option StrOrList := none
  description : Option StrOrList := none
  responsibilities : Option StrOrList := none
  achievements : Option StrOrList := none
deriving DecidableEq, Repr

/-- One entry of the `profile_data` payload. -/
structure ProfileEntry where
  category : Option String := none
  data : Option EntryData := none
  start_date : Option String := none
  end_date : Option String := none
  is_current : Option Bool := none
deriving DecidableEq, Repr

/-- The structured resume-source payload handed to
`generate_resume_from_source`. -/
structure ResumeSource where
  profile_data : List ProfileEntry := []
  personal_attributes : List AttributeItem := []
deriving DecidableEq, Repr

/-- `_format_date_range`: `start - (end or 'Present')` when a start date
and either an end date or a current flag are truthy, the bare start date
when only it is truthy, `""` otherwise. -/
def format_date_range (e : ProfileEntry) : String :=
  match e.start_date with
  | none => ""
  | some s =>
    if s == "" then ""
    else if pyTruthyS e.end_date || e.is_current.getD false then
      s ++ " - " ++ (if pyTruthyS e.end_date then e.end_date.getD "" else "Present")
    else s

/-- Python's `str.rstrip()` under the whitespace set of `pyIsSpaceCp`. -/
def py_rstrip (s : String) : String :=
  String.mk (s.data.reverse.dropWhile pyIsSpaceChar).reverse

/-- `_render_resume_from_source`: the deterministic local markdown
renderer used when no LLM credential is configured.  Sections are
accumulated exactly as the Python list `sections` is, then joined,
right-stripped and terminated with a newline. -/
def render_resume_from_source (src : ResumeSource) : String :=
  let profile_data := src.profile_data
  let summary_items := src.personal_attributes.filter fun a =>
    a.attribute_type == some "summary" || a.attribute_type == some "bio" ||
      a.attribute_type == some "headline"
  let summarySections : List String :=
    if summary_items.isEmpty then [] else
      ["## Professional Summary\n"] ++
        (summary_items.flatMap fun item =>
          let d := pyOrS item.description item.value
          if pyTruthyS d then ["- " ++ d.getD "" ++ "\n"] else []) ++
        ["\n"]
  let skills := profile_data.flatMap fun entry =>
    if entry.category == some "skill" then
      let data := entry.data.getD {}
      ensure_list (pyOrSL data.skills (data.name.map Sum.inl))
    else []
  let skillSections : List String :=
    if skills.isEmpty then [] else
      let unique_skills := pySortedSet (skills.filter fun s => s ≠ "")
      ["## Key Skills\n", "- " ++ ", ".intercalate unique_skills ++ "\n\n"]
  let work_items := profile_data.filter fun e =>
    e.category == some "work_experience"
  let workSections : List String :=
    if work_items.isEmpty then [] else
      ["## Work Experience\n"] ++
        work_items.flatMap fun entry =>
          let data := entry.data.getD {}
          let title := pyOrS (pyOrS data.title data.position) data.role
          let company := pyOrS data.company data.organization
          let header := " | ".intercalate
            (([title, company].filterMap id).filter fun p => p ≠ "")
          let headerPart := if header ≠ "" then ["### " ++ header ++ "\n"] else []
          let date_range := format_date_range entry
          let datePart :=
            if date_range ≠ "" then ["*" ++ date_range ++ "*\n"] else []
          let details := ensure_list data.description ++
            ensure_list data.responsibilities ++ ensure_list data.achievements
          headerPart ++ datePart ++
            (details.map fun d => "- " ++ d ++ "\n") ++ ["\n"]
  let education_items := profile_data.filter fun e =>
    e.category == some "education"
  let educationSections : List String :=
    if education_items.isEmpty then [] else
      ["## Education\n"] ++
        (education_items.flatMap fun entry =>
          let data := entry.data.getD {}
          let degree := pyOrS data.degree data.title
          let institution := pyOrS data.institution data.school
          let line := " | ".intercalate
            (([degree, institution].filterMap id).filter fun p => p ≠ "")
          if line ≠ "" then ["- " ++ line ++ "\n"] else []) ++
        ["\n"]
  let cert_items := profile_data.filter fun e =>
    e.category == some "certification"
  let certSections : List String :=
    if cert_items.isEmpty then [] else
      ["## Certifications\n"] ++
        (cert_items.flatMap fun entry =>
          let data := entry.data.getD {}
          let nm := pyOrS data.name data.title
          let line := " | ".intercalate
            (([nm, data.issuer].filterMap id).filter fun p => p ≠ "")
          if line ≠ "" then ["- " ++ line ++ "\n"] else []) ++
        ["\n"]
  let project_items := profile_data.filter fun e =>
    e.category == some "project"
  let projectSections : List String :=
    if project_items.isEmpty then [] else
      ["## Projects\n"] ++
        project_items.flatMap fun entry =>
          let data := entry.data.getD {}
          let title := pyOrS data.title data.name
          let titlePart :=
            if pyTruthyS title then ["### " ++ title.getD "" ++ "\n"] else []
          let details := ensure_list data.description
          titlePart ++ (details.map fun d => "- " ++ d ++ "\n") ++ ["\n"]
  let sections := ["# Resume\n"] ++ summarySections ++ skillSections ++
    workSections ++ educationSections ++ certSections ++ projectSections
  py_rstrip (String.join sections) ++ "\n"

/-- The dictionary shape returned by `analyze_text`. -/
structure AnalysisDict where
  required_skills : List String
  experience_level : String
  key_responsibilities : List String
  estimated_match_threshold : ℚ
deriving DecidableEq, Repr

/-- The hard-coded structured result `AnthropicLLMService.analyze_text`
returns (the simulated `_generate` output is ignored). -/
def hardcodedAnalysis : AnalysisDict :=
  { required_skills := ["Python", "FastAPI", "React", "AWS"]
    experience_level := "Senior"
    key_responsibilities :=
      ["Design and implement scalable systems", "Lead technical projects",
       "Mentor junior developers"]
    estimated_match_threshold := 7/10 }

/-- `AnthropicLLMService.analyze_text`: builds a prompt, runs the simulated
generator (whose output it discards), and returns the hard-coded analysis;
neither the API key nor the input text influences the result. -/
def anthropicAnalyzeText (_apiKey : Option String) (_text : String) :
    AnalysisDict :=
  hardcodedAnalysis

/-- The fallback analysis built inside `handle_tool_call`'s
`analyze_job_description` branch in `src/main.py` when the analysis call
raises. -/
def mainFallbackAnalysis : AnalysisDict :=
  { required_skills := [], experience_level := "Unknown",
    key_responsibilities := [], estimated_match_threshold := 1/2 }

/-- Outcome of the `analyze_job_description` branch of `handle_tool_call`. -/
inductive AnalyzeOutcome where
  | missingParam
  | analysisResult (a : AnalysisDict)
  | fallbackResult (a : AnalysisDict) (err : String)
deriving DecidableEq, Repr

/-- The `analyze_job_description` branch of `handle_tool_call`
(`src/main.py`): reject a missing/empty job description with a JSON-RPC
error, return the analysis on success, and fall back to the placeholder
dict when the analysis raised. -/
def handleAnalyzeJobDescription (jd : Option String)
    (res : Except String AnalysisDict) : AnalyzeOutcome :=
  match jd with
  | none => .missingParam
  | some s =>
    if s == "" then .missingParam
    else
      match res with
      | .ok a => .analysisResult a
      | .error _ =>
        .fallbackResult mainFallbackAnalysis "LLM analysis failed, using fallback"

/-- The fixed chunk list yielded by the simulated `_stream_generate`. -/
def simulatedResumeParts : List String :=
  ["# Professional Resume\n\n",
   "## Professional Summary\n",
   "Experienced software engineer with strong background in Python, TypeScript, and cloud technologies. ",
   "Proven track record of building scalable applications and leading development teams.\n\n",
   "## Key Skills\n",
   "- **Programming Languages:** Python, TypeScript, JavaScript\n",
   "- **Frameworks:** FastAPI, React, Node.js\n",
   "- **Cloud Platforms:** AWS, GCP\n",
   "- **Tools:** Docker, Kubernetes, Git\n\n",
   "## Work Experience\n\n",
   "### Senior Software Engineer | Tech Company\n",
   "*2020 - Present*\n\n",
   "- Developed microservices architecture serving 1M+ users\n",
   "- Led team of 5 engineers in implementing CI/CD pipeline\n",
   "- Reduced deployment time by 60% through automation\n\n",
   "## Education\n",
   "**Bachelor of Science in Computer Science**\n",
   "University Name, 2018\n\n",
   "## Achievements\n",
   "- Architected system handling 10K requests/second\n",
   "- Published 3 technical articles on Medium\n",
   "- Contributed to 5+ open source projects\n"]

/-- `AnthropicLLMService.generate_resume_from_source`: with no API key,
yield exactly the locally rendered markdown; with a key, yield the
(simulated) generator's chunks, joined when not streaming.  The job
description and match summary only enter the prompt, which the simulated
generator ignores. -/
def anthropicGenerateResumeFromSource (apiKey : Option String)
    (_jd : String) (src : ResumeSource) (_matchSummaryJson : String)
    (stream : Bool) : List String :=
  match apiKey with
  | none => [render_resume_from_source src]
  | some _ =>
    if stream then simulatedResumeParts else [String.join simulatedResumeParts]

/-! ## Searchable text (`src/core/vector_database.py`,
`VectorDatabase._generate_searchable_text_from_profile_data`) -/

/-- A `profile_data` JSONB payload, restricted to the recognized keys. -/
structure ProfileDataPayload where
  title : Option String := none
  company : Option String := none
  position : Option String := none
  description : Option String := none
  skills : Option StrOrList := none
  achievements : Option StrOrList := none
  responsibilities : Option StrOrList := none
  institution : Option String := none
  degree : Option String := none
  field_of_study : Option String := none
  name : Option String := none
  level : Option String := none
deriving DecidableEq, Repr

/-- Render an optional plain field: absent fields contribute nothing. -/
def optField : Option String → List String
  | none => []
  | some v => [v]

/-- `_generate_searchable_text_from_profile_data`: append the recognized
fields in their fixed order (skills prefixed with `Skills: ` and
comma-joined when a list, achievement and responsibility lists joined with
`. `) and join the parts with `. `. -/
def generate_searchable_text_from_profile_data (d : ProfileDataPayload) :
    String :=
  let text_parts : List String :=
    optField d.title ++ optField d.company ++ optField d.position ++
    optField d.description ++
    (match d.skills with
     | none => []
     | some (.inr l) => ["Skills: " ++ ", ".intercalate l]
     | some (.inl s) => ["Skills: " ++ s]) ++
    (match d.achievements with
     | none => []
     | some (.inr l) => [". ".intercalate l]
     | some (.inl s) => [s]) ++
    (match d.responsibilities with
     | none => []
     | some (.inr l) => [". ".intercalate l]
     | some (.inl s) => [s]) ++
    optField d.institution ++ optField d.degree ++ optField d.field_of_study ++
    optField d.name ++ optField d.level
  ". ".intercalate text_parts

/-! ## Search tool (`src/tools/search_tool.py`,
`SearchMatchingResumesTool.execute`) -/

/-- A JSON argument value as far as the tool's validation inspects it. -/
inductive JsonArg where
  | jint (n : ℤ)
  | jbool (b : Bool)
  | jstr (s : String)
  | jnull
  | jother
deriving DecidableEq, Repr

/-- Python `isinstance(v, int)` (a `bool` is a subclass of `int`). -/
def JsonArg.isInstanceInt : JsonArg → Bool
  | .jint _ => true
  | .jbool _ => true
  | _ => false

/-- The integer value of an argument that passed `isinstance(v, int)`. -/
def JsonArg.intVal : JsonArg → ℤ
  | .jint n => n
  | .jbool b => if b then 1 else 0
  | _ => 0

/-- The `arguments` dictionary of a `search_matching_resumes` call. -/
structure SearchToolArguments where
  job_description : Option String := none
  top_k : Option JsonArg := none
deriving DecidableEq, Repr

/-- How far `execute` gets: an early error response (`is_error=True`), or
the delegated search with its validated parameters.  The search runs only
in the second case, so an `errorResponse` value certifies that no
embedding or similarity search was performed. -/
inductive SearchToolStep where
  | errorResponse (text : String) (isError : Bool)
  | searchExecuted (jd : String) (top_k : ℤ)
deriving DecidableEq, Repr

/-- `SearchMatchingResumesTool.execute` up to the point the search runs:
reject a missing or empty job description, then reject a `top_k` that is
not an integer in `[1, 20]` (defaulting to 5 when absent), and only then
delegate to `search_matching_resumes`. -/
def searchMatchingResumesExecute (args : SearchToolArguments) :
    SearchToolStep :=
  match args.job_description with
  | none => .errorResponse "Error: job_description is required" true
  | some jd =>
    if jd == "" then .errorResponse "Error: job_description is required" true
    else
      let top_k := args.top_k.getD (.jint 5)
      if !top_k.isInstanceInt || top_k.intVal < 1 || 20 < top_k.intVal then
        .errorResponse "Error: top_k must be an integer between 1 and 20" true
      else .searchExecuted jd top_k.intVal

/-! ## TXT parsing (`src/utils/document_parser.py`,
`DocumentParser._parse_txt`)

Byte strings are lists of `Fin 256`; decoded text is a list of Unicode
code points.  Each codec in the cascade is modelled as a partial decode
(`none` = `UnicodeDecodeError`). -/

/-- A byte of a Python `bytes` object. -/
abbrev PyByte := Fin 256

/-- Strict UTF-8 decoding as Python's `bytes.decode("utf-8")` performs it:
reject stray continuation bytes, overlong forms, surrogates and code
points above `U+10FFFF`; reject truncated sequences. -/
def utf8Decode : List PyByte → Option (List ℕ)
  | [] => some []
  | b :: rest =>
    let n := (b : ℕ)
    if n < 0x80 then (utf8Decode rest).map (n :: ·)
    else if n < 0xC2 then none
    else if n < 0xE0 then
      match rest with
      | b2 :: rest2 =>
        if 0x80 ≤ (b2 : ℕ) ∧ (b2 : ℕ) < 0xC0 then
          (utf8Decode rest2).map (((n - 0xC0) * 0x40 + ((b2 : ℕ) - 0x80)) :: ·)
        else none
      | [] => none
    else if n < 0xF0 then
      match rest with
      | b2 :: b3 :: rest2 =>
        let lo2 := if n = 0xE0 then 0xA0 else 0x80
        let hi2 := if n = 0xED then 0xA0 else 0xC0
        if (lo2 ≤ (b2 : ℕ) ∧ (b2 : ℕ) < hi2) ∧
            (0x80 ≤ (b3 : ℕ) ∧ (b3 : ℕ) < 0xC0) then
          (utf8Decode rest2).map
            (((n - 0xE0) * 0x1000 + ((b2 : ℕ) - 0x80) * 0x40 +
              ((b3 : ℕ) - 0x80)) :: ·)
        else none
      | _ => none
    else if n < 0xF5 then
      match rest with
      | b2 :: b3 :: b4 :: rest2 =>
        let lo2 := if n = 0xF0 then 0x90 else 0x80
        let hi2 := if n = 0xF4 then 0x90 else 0xC0
        if (lo2 ≤ (b2 : ℕ) ∧ (b2 : ℕ) < hi2) ∧
            (0x80 ≤ (b3 : ℕ) ∧ (b3 : ℕ) < 0xC0) ∧
            (0x80 ≤ (b4 : ℕ) ∧ (b4 : ℕ) < 0xC0) then
          (utf8Decode rest2).map
            (((n - 0xF0) * 0x40000 + ((b2 : ℕ) - 0x80) * 0x1000 +
              ((b3 : ℕ) - 0x80) * 0x40 + ((b4 : ℕ) - 0x80)) :: ·)
        else none
      | _ => none
    else none

/-- UTF-8 decoding with `errors="ignore"`: like `utf8Decode` but skip a
byte and continue whenever a valid sequence cannot start at it.  (This
branch of `_parse_txt` is unreachable; byte-wise skipping approximates
CPython's handler, which may drop several bytes of one invalid sequence
at a time.) -/
def utf8DecodeIgnoreErrors : List PyByte → List ℕ
  | [] => []
  | b :: rest =>
    let n := (b : ℕ)
    if n < 0x80 then n :: utf8DecodeIgnoreErrors rest
    else if n < 0xC2 then utf8DecodeIgnoreErrors rest
    else if n < 0xE0 then
      match hr : rest with
      | b2 :: rest2 =>
        if 0x80 ≤ (b2 : ℕ) ∧ (b2 : ℕ) < 0xC0 then
          ((n - 0xC0) * 0x40 + ((b2 : ℕ) - 0x80)) :: utf8DecodeIgnoreErrors rest2
        else utf8DecodeIgnoreErrors rest
      | [] => []
    else if n < 0xF0 then
      match hr : rest with
      | b2 :: b3 :: rest2 =>
        let lo2 := if n = 0xE0 then 0xA0 else 0x80
        let hi2 := if n = 0xED then 0xA0 else 0xC0
        if (lo2 ≤ (b2 : ℕ) ∧ (b2 : ℕ) < hi2) ∧
            (0x80 ≤ (b3 : ℕ) ∧ (b3 : ℕ) < 0xC0) then
          ((n - 0xE0) * 0x1000 + ((b2 : ℕ) - 0x80) * 0x40 + ((b3 : ℕ) - 0x80)) ::
            utf8DecodeIgnoreErrors rest2
        else utf8DecodeIgnoreErrors rest
      | _ => utf8DecodeIgnoreErrors rest
    else if n < 0xF5 then
      match hr : rest with
      | b2 :: b3 :: b4 :: rest2 =>
        let lo2 := if n = 0xF0 then 0x90 else 0x80
        let hi2 := if n = 0xF4 then 0x90 else 0xC0
        if (lo2 ≤ (b2 : ℕ) ∧ (b2 : ℕ) < hi2) ∧
            (0x80 ≤ (b3 : ℕ) ∧ (b3 : ℕ) < 0xC0) ∧
            (0x80 ≤ (b4 : ℕ) ∧ (b4 : ℕ) < 0xC0) then
          ((n - 0xF0) * 0x40000 + ((b2 : ℕ) - 0x80) * 0x1000 +
            ((b3 : ℕ) - 0x80) * 0x40 + ((b4 : ℕ) - 0x80)) ::
            utf8DecodeIgnoreErrors rest2
        else utf8DecodeIgnoreErrors rest
      | _ => utf8DecodeIgnoreErrors rest
    else utf8DecodeIgnoreErrors rest
termination_by bs => bs.length
decreasing_by all_goals ((try subst hr); simp only [List.length_cons]; omega)

/-- Latin-1 (`bytes.decode("latin-1")`): every byte maps directly to the
code point of the same value, so decoding never fails. -/
def latin1Decode (bs : List PyByte) : Option (List ℕ) :=
  some (bs.map fun b => (b : ℕ))

/-- The bytes `cp1252` leaves undefined (decoding them raises). -/
def cp1252Undefined (n : ℕ) : Bool :=
  decide (n = 0x81 ∨ n = 0x8D ∨ n = 0x8F ∨ n = 0x90 ∨ n = 0x9D)

/-- The Windows-1252 translation of one byte value. -/
def cp1252MapByte (n : ℕ) : ℕ :=
  if n = 0x80 then 0x20AC else if n = 0x82 then 0x201A
  else if n = 0x83 then 0x0192 else if n = 0x84 then 0x201E
  else if n = 0x85 then 0x2026 else if n = 0x86 then 0x2020
  else if n = 0x87 then 0x2021 else if n = 0x88 then 0x02C6
  else if n = 0x89 then 0x2030 else if n = 0x8A then 0x0160
  else if n = 0x8B then 0x2039 else if n = 0x8C then 0x0152
  else if n = 0x8E then 0x017D else if n = 0x91 then 0x2018
  else if n = 0x92 then 0x2019 else if n = 0x93 then 0x201C
  else if n = 0x94 then 0x201D else if n = 0x95 then 0x2022
  else if n = 0x96 then 0x2013 else if n = 0x97 then 0x2014
  else if n = 0x98 then 0x02DC else if n = 0x99 then 0x2122
  else if n = 0x9A then 0x0161 else if n = 0x9B then 0x203A
  else if n = 0x9C then 0x0153 else if n = 0x9E then 0x017E
  else if n = 0x9F then 0x0178 else n

/-- `bytes.decode("cp1252")`: fails on the five undefined bytes, otherwise
translates byte-wise. -/
def cp1252Decode (bs : List PyByte) : Option (List ℕ) :=
  if bs.any (fun b => cp1252Undefined (b : ℕ)) then none
  else some (bs.map fun b => cp1252MapByte (b : ℕ))

/-- Python's `str.strip()` on a list of code points. -/
def pyStrip (l : List ℕ) : List ℕ :=
  ((l.dropWhile pyIsSpaceCp).reverse.dropWhile pyIsSpaceCp).reverse

/-- `DocumentParser._parse_txt` on a byte string: try `utf-8`, `latin-1`
and `cp1252` in order, fall back to `utf-8` with `errors="ignore"` if all
fail, then reject text that strips to nothing with a parsing error. -/
def parse_txt_bytes (bs : List PyByte) : Except String (List ℕ) :=
  let text :=
    match utf8Decode bs with
    | some t => t
    | none =>
      match latin1Decode bs with
      | some t => t
      | none =>
        match cp1252Decode bs with
        | some t => t
        | none => utf8DecodeIgnoreErrors bs
  if pyStrip text = [] then .error "Empty text file" else .ok text

/-! ## Claim-side formulations

The specification's own wording of the summarization formula, used to
state the refinement theorem for `summarize_matches`. -/

/-- The spec's lower-cased required-skill set. -/
def claimRequiredSet (a : JobAnalysis) : Finset String :=
  (a.required_skills.map pyLower).toFinset

/-- The spec's lower-cased union of all matches' skills. -/
def claimPoolSet (ms : List ResumeMatch) : Finset String :=
  ((ms.flatMap fun m => m.skills).map pyLower).toFinset

/-- The spec's similarity average: the mean of the similarity scores, 0.0
for an empty match list. -/
def claimSimilarityAvg (ms : List ResumeMatch) : ℚ :=
  if ms = [] then 0
  else ((ms.map fun m => m.similarity_score).sum) / ms.length

/-- The spec's match rate: blend 70% similarity average with 30% skill
coverage, capped at 1.0, when any required skill exists; otherwise the
similarity average alone. -/
def claimMatchRate (a : JobAnalysis) (ms : List ResumeMatch) : ℚ :=
  if claimRequiredSet a = ∅ then claimSimilarityAvg ms
  else
    min 1 (7/10 * claimSimilarityAvg ms +
      3/10 * (((claimRequiredSet a ∩ claimPoolSet ms).card : ℚ) /
        (claimRequiredSet a).card))

/-- The spec's rendering of the recognized profile-data fields, in the
fixed order title, company, position, description, skills, achievements,
responsibilities, institution, degree, field_of_study, name, level; skill
lists are rendered as `Skills: ` plus the comma-joined list, absent fields
are skipped. -/
def claimSearchableParts (d : ProfileDataPayload) : List String :=
  optField d.title ++ optField d.company ++ optField d.position ++
  optField d.description ++
  (match d.skills with
   | none => []
   | some (.inl s) => ["Skills: " ++ s]
   | some (.inr l) => ["Skills: " ++ ", ".intercalate l]) ++
  (match d.achievements with
   | none => []
   | some (.inl s) => [s]
   | some (.inr l) => [". ".intercalate l]) ++
  (match d.responsibilities with
   | none => []
   | some (.inl s) => [s]
   | some (.inr l) => [". ".intercalate l]) ++
  optField d.institution ++ optField d.degree ++ optField d.field_of_study ++
  optField d.name ++ optField d.level

/-- The claim's worked payload `{"title": "Eng", "skills": ["Go", "Rust"]}`. -/
def exampleProfilePayload : ProfileDataPayload :=
  { title := some "Eng", skills := some (Sum.inr ["Go", "Rust"]) }

/-- The `data` dictionary of the renderer example's skill entry. -/
def exampleSkillEntryData : EntryData :=
  { skills := some (Sum.inr ["Go", "Rust"]) }

/-- A small resume source with one skill entry, for the renderer. -/
def exampleSkillEntry : ProfileEntry :=
  { category := some "skill", data := some exampleSkillEntryData }

def exampleResumeSource : ResumeSource :=
  { profile_data := [exampleSkillEntry] }

/-! ## Lemmas and claim theorems -/

lemma lookupEntry_removeKey (s : CacheState) (k : String) :
    lookupEntry (removeKey s k) k = none := by
  apply List.find?_eq_none.mpr
  intro e he
  have := (List.mem_filter.mp he).2
  simpa using this

lemma find?_append_of_none {α : Type} {p : α → Bool} {l₁ l₂ : List α}
    (h : l₁.find? p = none) : (l₁ ++ l₂).find? p = l₂.find? p := by
  induction l₁ with
  | nil => rfl
  | cons a t ih =>
    cases hp : p a with
    | false =>
      simp only [List.cons_append, List.find?, hp] at h ⊢
      exact ih h
    | true => simp [List.find?, hp] at h

/-- **C2.** For every cache entry stored with expiry time `T`: a `get` of its
key at a time strictly before `T` returns the entry, a `get` at or after
`T` returns `None` and removes the entry from the cache, and a `set` of an
entry whose expiry has already passed leaves the cache unchanged. -/
theorem resume_cache_ttl (s : CacheState) (k : String) (e : ResumeCacheEntry)
    (now T : ℚ) (hfind : lookupEntry s k = some e) (hT : e.expires_at = T) :
    ((now < T → (ResumeCache.get s k now).1 = some e) ∧
      (T ≤ now → (ResumeCache.get s k now).1 = none ∧
        lookupEntry (ResumeCache.get s k now).2 k = none)) ∧
    (∀ (maxEntries : ℕ) (s' : CacheState) (e' : ResumeCacheEntry) (now' : ℚ),
      e'.expires_at ≤ now' → ResumeCache.set maxEntries s' e' now' = s') := by
  constructor
  · unfold ResumeCache.get
    unfold lookupEntry at hfind
    rw [hfind]
    constructor
    · intro hlt
      have hexp : e.is_expired now = false := by
        simp [ResumeCacheEntry.is_expired, hT]
        exact hlt
      simp [hexp]
    · intro hle
      have hexp : e.is_expired now = true := by
        simp [ResumeCacheEntry.is_expired, hT]
        exact hle
      simp [hexp, lookupEntry_removeKey]
  · intro maxEntries s' e' now' h
    unfold ResumeCache.set
    have hexp : e'.is_expired now' = true := by
      simp [ResumeCacheEntry.is_expired]
      exact h
    simp [hexp]

/-- Witness for `resume_cache_ttl` at a concrete one-entry cache. -/
theorem resume_cache_ttl_witness :
    (ResumeCache.get [cacheEntry1] "k1" 5).1 = some cacheEntry1 ∧
      (ResumeCache.get [cacheEntry1] "k1" 100).1 = none ∧
      ResumeCache.set 200 [cacheEntry1] cacheEntry1 100 = [cacheEntry1] := by
  refine ⟨?_, ?_, ?_⟩
  · exact (resume_cache_ttl [cacheEntry1] "k1" cacheEntry1 5 100 rfl rfl).1.1
      (by norm_num)
  · exact ((resume_cache_ttl [cacheEntry1] "k1" cacheEntry1 100 100 rfl rfl).1.2
      (by norm_num)).1
  · exact (resume_cache_ttl [cacheEntry1] "k1" cacheEntry1 0 100 rfl rfl).2
      200 [cacheEntry1] cacheEntry1 100 (by norm_num [cacheEntry1])

lemma evictIfNeeded_length_le (maxEntries : ℕ) (s : CacheState) :
    (evictIfNeeded maxEntries s).length ≤ maxEntries := by
  simp only [evictIfNeeded, List.length_drop]
  omega

lemma removeKey_length_le (s : CacheState) (k : String) :
    (removeKey s k).length ≤ s.length :=
  List.length_filter_le _ s

lemma removeKey_length_lt (s : CacheState) (k : String) (e : ResumeCacheEntry)
    (hfind : lookupEntry s k = some e) :
    (removeKey s k).length < s.length := by
  apply List.length_filter_lt_length_iff_exists.mpr
  refine ⟨e, List.mem_of_find?_eq_some hfind, ?_⟩
  have := List.find?_some hfind
  simp only [this, Bool.not_true, Bool.false_eq_true, not_false_eq_true]

lemma applyCacheOp_length_le (maxEntries : ℕ) (s : CacheState) (op : CacheOp)
    (h : s.length ≤ maxEntries) :
    (applyCacheOp maxEntries s op).length ≤ maxEntries := by
  cases op with
  | opGet k now =>
    simp only [applyCacheOp, ResumeCache.get]
    cases hfind : s.find? (fun e => e.key == k) with
    | none => exact h
    | some e =>
      show (if e.is_expired now = true then ((none : Option ResumeCacheEntry), removeKey s k)
        else (some e, removeKey s k ++ [e])).2.length ≤ maxEntries
      by_cases hexp : e.is_expired now = true
      · rw [if_pos hexp]
        exact le_trans (removeKey_length_le s k) h
      · rw [if_neg hexp]
        have hlt := removeKey_length_lt s k e hfind
        simp only [List.length_append, List.length_singleton]
        omega
  | opSet e now =>
    simp only [applyCacheOp, ResumeCache.set]
    by_cases hexp : e.is_expired now = true
    · rw [if_pos hexp]; exact h
    · rw [if_neg hexp]
      exact evictIfNeeded_length_le maxEntries _

lemma removeKey_eq_self (s : CacheState) (k : String)
    (h : ∀ x ∈ s, x.key ≠ k) : removeKey s k = s := by
  apply List.filter_eq_self.mpr
  intro x hx
  simpa using h x hx

lemma removeKey_length_of_nodup (s : CacheState) (k : String)
    (e : ResumeCacheEntry) (hnd : (s.map (fun x => x.key)).Nodup)
    (hfind : lookupEntry s k = some e) :
    (removeKey s k).length + 1 = s.length := by
  induction s with
  | nil => simp [lookupEntry] at hfind
  | cons a t ih =>
    simp only [List.map_cons, List.nodup_cons] at hnd
    by_cases hak : a.key = k
    · have htail : removeKey t k = t := by
        apply removeKey_eq_self
        intro x hx hxk
        have hmem : x.key ∈ t.map (fun x => x.key) := List.mem_map_of_mem _ hx
        rw [hxk, ← hak] at hmem
        exact hnd.1 hmem
      simp only [removeKey] at htail ⊢
      simp [List.filter_cons, hak, htail]
    · have hfind' : lookupEntry t k = some e := by
        have hne : (a.key == k) = false := by simp [hak]
        simpa [lookupEntry, List.find?, hne] using hfind
      have ht := ih hnd.2 hfind'
      simp only [removeKey] at ht ⊢
      simp [List.filter_cons, hak]
      omega

/-- **C3.** The resume cache's capacity and LRU discipline: (a) starting
from any state within capacity, every sequence of `get`/`set` operations
leaves at most `maxEntries` entries; (b) at capacity, storing a fresh,
unexpired key evicts exactly the least-recently-used (front) entry — the
new state is the old state minus its front entry with the new entry
appended; (c) a successful `get` promotes its key to most-recently-used,
so after the overflow caused by storing a fresh key the looked-up entry is
still present (the eviction removes the least-recently-used key instead). -/
theorem resume_cache_lru (maxEntries : ℕ) :
    (∀ (s : CacheState) (ops : List CacheOp), s.length ≤ maxEntries →
      (applyCacheOps maxEntries s ops).length ≤ maxEntries) ∧
    (∀ (s : CacheState) (e : ResumeCacheEntry) (now : ℚ),
      s.length = maxEntries → 0 < maxEntries →
      (∀ x ∈ s, x.key ≠ e.key) → ¬ (e.is_expired now = true) →
      ResumeCache.set maxEntries s e now = s.tail ++ [e]) ∧
    (∀ (s : CacheState) (k : String) (eK eNew : ResumeCacheEntry)
        (now now' : ℚ),
      (s.map (fun x => x.key)).Nodup → s.length = maxEntries →
      2 ≤ maxEntries →
      lookupEntry s k = some eK → ¬ (eK.is_expired now = true) →
      (∀ x ∈ s, x.key ≠ eNew.key) → ¬ (eNew.is_expired now' = true) →
      lookupEntry
        (ResumeCache.set maxEntries (ResumeCache.get s k now).2 eNew now') k
        = some eK) := by
  refine ⟨?_, ?_, ?_⟩
  · intro s ops h
    induction ops generalizing s with
    | nil => exact h
    | cons op rest ih =>
      exact ih _ (applyCacheOp_length_le maxEntries s op h)
  · intro s e now hlen hpos hfresh hexp
    have hrem : removeKey s e.key = s := removeKey_eq_self s e.key hfresh
    simp only [ResumeCache.set, if_neg hexp, hrem, evictIfNeeded,
      List.length_append, List.length_singleton, hlen]
    have hdrop : maxEntries + 1 - maxEntries = 1 := by omega
    rw [hdrop, List.drop_append_of_le_length (by omega), List.drop_one]
  · intro s k eK eNew now now' hnd hlen hmax hfind hexpK hfresh hexpN
    have hkey : eK.key = k := by simpa using List.find?_some hfind
    have hget : (ResumeCache.get s k now).2 = removeKey s k ++ [eK] := by
      unfold lookupEntry at hfind
      simp only [ResumeCache.get, hfind, if_neg hexpK]
    rw [hget]
    have hfresh' : ∀ x ∈ removeKey s k ++ [eK], x.key ≠ eNew.key := by
      intro x hx
      rcases List.mem_append.mp hx with hx' | hx'
      · exact hfresh x (List.mem_of_mem_filter hx')
      · have hxe : x = eK := by simpa using hx'
        exact hxe ▸ hfresh eK (List.mem_of_find?_eq_some hfind)
    have hrem : removeKey (removeKey s k ++ [eK]) eNew.key
        = removeKey s k ++ [eK] := removeKey_eq_self _ _ hfresh'
    have hlenrem : (removeKey s k).length + 1 = maxEntries := by
      rw [← hlen]; exact removeKey_length_of_nodup s k eK hnd hfind
    simp only [ResumeCache.set, if_neg hexpN, hrem, evictIfNeeded]
    have hlen2 : (removeKey s k ++ [eK] ++ [eNew]).length = maxEntries + 1 := by
      simp only [List.length_append, List.length_singleton]; omega
    rw [hlen2]
    have hdrop : maxEntries + 1 - maxEntries = 1 := by omega
    rw [hdrop, List.append_assoc,
      List.drop_append_of_le_length (by omega)]
    unfold lookupEntry
    have hnone : ((removeKey s k).drop 1).find? (fun e => e.key == k)
        = none := by
      apply List.find?_eq_none.mpr
      intro x hx
      have hx' : x ∈ removeKey s k := List.mem_of_mem_drop hx
      have := (List.mem_filter.mp hx').2
      simpa using this
    rw [find?_append_of_none hnone]
    simp [List.find?, hkey]

/-- Witness for `resume_cache_lru`: a capacity-2 cache holding `k1` (least
recent) and `k2`; a `get` of `k1` promotes it, so storing the fresh key
`k3` evicts `k2` and `k1` survives. -/
theorem resume_cache_lru_witness :
    (applyCacheOps 2 []
        [.opSet cacheEntry1 0, .opSet cacheEntry2 1, .opSet cacheEntry3 2]
      ).length ≤ 2 ∧
      ResumeCache.set 2 [cacheEntry1, cacheEntry2] cacheEntry3 2
        = [cacheEntry2, cacheEntry3] ∧
      lookupEntry
        (ResumeCache.set 2
          (ResumeCache.get [cacheEntry1, cacheEntry2] "k1" 1).2 cacheEntry3 2)
        "k1" = some cacheEntry1 := by
  refine ⟨?_, ?_, ?_⟩
  · exact (resume_cache_lru 2).1 []
      [.opSet cacheEntry1 0, .opSet cacheEntry2 1, .opSet cacheEntry3 2]
      (by simp)
  · exact (resume_cache_lru 2).2.1 [cacheEntry1, cacheEntry2] cacheEntry3 2
      rfl (by norm_num)
      (by
        intro x hx
        simp only [List.mem_cons, List.mem_singleton, List.not_mem_nil,
          or_false] at hx
        rcases hx with rfl | rfl <;> simp [cacheEntry1, cacheEntry2, cacheEntry3])
      (by norm_num [ResumeCacheEntry.is_expired, cacheEntry3])
  · exact (resume_cache_lru 2).2.2 [cacheEntry1, cacheEntry2] "k1"
      cacheEntry1 cacheEntry3 1 2
      (by simp [cacheEntry1, cacheEntry2])
      rfl (by norm_num) rfl
      (by norm_num [ResumeCacheEntry.is_expired, cacheEntry1])
      (by
        intro x hx
        simp only [List.mem_cons, List.mem_singleton, List.not_mem_nil,
          or_false] at hx
        rcases hx with rfl | rfl <;> simp [cacheEntry1, cacheEntry2, cacheEntry3])
      (by norm_num [ResumeCacheEntry.is_expired, cacheEntry3])

lemma toFinset_of_perm {α : Type} [DecidableEq α] {l₁ l₂ : List α}
    (h : List.Perm l₁ l₂) : l₁.toFinset = l₂.toFinset := by
  ext x
  simp [List.mem_toFinset, h.mem_iff]

lemma toFinset_dedup_eq (l : List String) : l.dedup.toFinset = l.toFinset := by
  ext x
  simp

lemma pySortedSet_toFinset (l : List String) :
    (pySortedSet l).toFinset = l.toFinset := by
  rw [pySortedSet, toFinset_of_perm (List.perm_insertionSort _ _),
    toFinset_dedup_eq]

lemma pySortedSet_length (l : List String) :
    (pySortedSet l).length = l.toFinset.card := by
  rw [pySortedSet, List.length_insertionSort, List.card_toFinset]

/-- **C1.** `summarize_matches` computes the `MatchSummary` by the spec's
formula: the matched (resp. missing) skills are the lower-cased
intersection (resp. difference) of the required skills with the union of
the matches' skills, the match rate is the 70/30 blend of similarity
average and skill coverage capped at 1.0 (the similarity average alone
when no required skills exist), and the percent is that rate times 100
rounded; on the worked example the rate is 0.64 and the percent 64. -/
theorem summarize_matches_formula :
    (∀ (a : JobAnalysis) (ms : List ResumeMatch),
      (summarizeMatchesCore a ms).matched_skills.toFinset
          = claimRequiredSet a ∩ claimPoolSet ms ∧
      (summarizeMatchesCore a ms).missing_skills.toFinset
          = claimRequiredSet a \ claimPoolSet ms ∧
      (summarizeMatchesCore a ms).match_rate = claimMatchRate a ms ∧
      (summarizeMatchesCore a ms).match_rate_percent
          = pyRound (claimMatchRate a ms * 100)) ∧
    (summarizeMatchesCore exampleAnalysis exampleMatches).matched_skills
        = ["python"] ∧
    (summarizeMatchesCore exampleAnalysis exampleMatches).missing_skills
        = ["aws"] ∧
    (summarizeMatchesCore exampleAnalysis exampleMatches).match_rate
        = 16/25 ∧
    (summarizeMatchesCore exampleAnalysis exampleMatches).match_rate_percent
        = 64 := by
  have hgen : ∀ (a : JobAnalysis) (ms : List ResumeMatch),
      (summarizeMatchesCore a ms).matched_skills.toFinset
          = claimRequiredSet a ∩ claimPoolSet ms ∧
      (summarizeMatchesCore a ms).missing_skills.toFinset
          = claimRequiredSet a \ claimPoolSet ms ∧
      (summarizeMatchesCore a ms).match_rate = claimMatchRate a ms ∧
      (summarizeMatchesCore a ms).match_rate_percent
          = pyRound (claimMatchRate a ms * 100) := by
    intro a ms
    simp only [summarizeMatchesCore]
    have hfilT : (((a.required_skills.map pyLower).dedup).filter
        (fun s => s ∈ ((ms.flatMap fun m => m.skills).map pyLower).dedup)).toFinset
        = claimRequiredSet a ∩ claimPoolSet ms := by
      ext x
      simp [claimRequiredSet, claimPoolSet, List.mem_filter]
    have hfilF : (((a.required_skills.map pyLower).dedup).filter
        (fun s => s ∉ ((ms.flatMap fun m => m.skills).map pyLower).dedup)).toFinset
        = claimRequiredSet a \ claimPoolSet ms := by
      ext x
      simp [claimRequiredSet, claimPoolSet, List.mem_filter]
    have hcard : ((a.required_skills.map pyLower).dedup).length
        = (claimRequiredSet a).card := by
      rw [claimRequiredSet, List.card_toFinset]
    have hinter : (pySortedSet (((a.required_skills.map pyLower).dedup).filter
        (fun s => s ∈ ((ms.flatMap fun m => m.skills).map pyLower).dedup))).length
        = (claimRequiredSet a ∩ claimPoolSet ms).card := by
      rw [pySortedSet_length, hfilT]
    have havg : (if ms.length ≠ 0 then
        ((ms.map fun m => m.similarity_score).sum) / (ms.length : ℚ) else 0)
        = claimSimilarityAvg ms := by
      rcases ms with _ | ⟨m, tl⟩ <;> simp [claimSimilarityAvg]
    have hrate : (if ((a.required_skills.map pyLower).dedup).length ≠ 0 then
        min 1 (7/10 * (if ms.length ≠ 0 then
            ((ms.map fun m => m.similarity_score).sum) / (ms.length : ℚ) else 0) +
          3/10 * (((pySortedSet (((a.required_skills.map pyLower).dedup).filter
              (fun s => s ∈ ((ms.flatMap fun m => m.skills).map pyLower).dedup))).length : ℚ)
            / (((a.required_skills.map pyLower).dedup).length : ℚ)))
      else (if ms.length ≠ 0 then
        ((ms.map fun m => m.similarity_score).sum) / (ms.length : ℚ) else 0))
        = claimMatchRate a ms := by
      by_cases hreq0 : claimRequiredSet a = ∅
      · have hz : ((a.required_skills.map pyLower).dedup).length = 0 := by
          rw [hcard, hreq0]
          simp
        rw [claimMatchRate, if_pos hreq0, hz,
          if_neg (show ¬ ((0:ℕ) ≠ 0) by simp)]
        exact havg
      · have hne : ((a.required_skills.map pyLower).dedup).length ≠ 0 := by
          rw [hcard]
          simpa [Finset.card_eq_zero] using hreq0
        rw [if_pos hne, claimMatchRate, if_neg hreq0, havg, hinter, hcard]
    exact ⟨by rw [pySortedSet_toFinset, hfilT],
      by rw [pySortedSet_toFinset, hfilF], hrate, by rw [hrate]⟩
  have hcm : claimMatchRate exampleAnalysis exampleMatches = 16/25 := by
    have h0 : claimRequiredSet exampleAnalysis ≠ ∅ := by decide
    have h1 : (claimRequiredSet exampleAnalysis).card = 2 := by decide
    have h2 : (claimRequiredSet exampleAnalysis ∩
        claimPoolSet exampleMatches).card = 1 := by decide
    have h3 : claimSimilarityAvg exampleMatches = 7/10 := by
      simp [claimSimilarityAvg, exampleMatches]
      norm_num
    rw [claimMatchRate, if_neg h0, h1, h2, h3]
    have : (7:ℚ)/10 * (7/10) + 3/10 * (((1:ℕ):ℚ) / ((2:ℕ):ℚ)) = 16/25 := by
      push_cast
      norm_num
    rw [this, min_eq_right (by norm_num)]
  refine ⟨hgen, by decide, by decide, ?_, ?_⟩
  · rw [(hgen exampleAnalysis exampleMatches).2.2.1, hcm]
  · rw [(hgen exampleAnalysis exampleMatches).2.2.2, hcm]
    norm_num [pyRound]

lemma sumSquares_nonneg (v : List ℚ) : 0 ≤ sumSquares v := by
  apply List.sum_nonneg
  intro x hx
  rcases List.mem_map.mp hx with ⟨y, _, rfl⟩
  exact mul_self_nonneg y

lemma npDot_self (v : List ℚ) : npDot v v = sumSquares v := by
  induction v with
  | nil => rfl
  | cons a t ih =>
    simp only [npDot, sumSquares, List.zipWith_cons_cons, List.map_cons,
      List.sum_cons] at ih ⊢
    rw [ih]

/-- **C4 counterexample.** The claim says a zero-magnitude vector yields a
similarity of 0.0; in the code the division `np.dot / (norm * norm)` is
unguarded, so for the zero vector paired with `[1.0]` the denominator is
zero and the IEEE quotient is a non-finite value (modelled `none`), not
`0.0`. -/
theorem similarity_zero_vector_counterexample :
    similaritySearchValue [0] [1] = none ∧
      ¬ similaritySearchValue [0] [1] = some 0 := by
  have h : sumSquares [0] = 0 := by norm_num [sumSquares]
  constructor
  · rw [similaritySearchValue, if_pos (Or.inl h)]
  · rw [similaritySearchValue, if_pos (Or.inl h)]
    simp

/-- **C4 (amended).** The in-memory `similarity_search` similarity equals
the dot product divided by the product of the magnitudes whenever both
magnitudes are non-zero (and equals 1 for a non-zero vector paired with
itself); when either magnitude is zero the unguarded float division
produces a non-finite value (`nan`/`±inf`, modelled `none`) rather than
0.0 — no division-by-zero exception is raised, the result is simply not a
number. -/
theorem similarity_unguarded_division (q r : List ℚ) :
    (sumSquares q ≠ 0 → sumSquares r ≠ 0 →
      similaritySearchValue q r
        = some (((npDot q r : ℚ) : ℝ) / (npLinalgNorm q * npLinalgNorm r))) ∧
    (sumSquares q = 0 ∨ sumSquares r = 0 →
      similaritySearchValue q r = none) ∧
    (sumSquares q ≠ 0 → similaritySearchValue q q = some 1) := by
  refine ⟨?_, ?_, ?_⟩
  · intro h1 h2
    rw [similaritySearchValue, if_neg (by tauto)]
  · intro h
    rw [similaritySearchValue, if_pos h]
  · intro h1
    rw [similaritySearchValue, if_neg (by tauto)]
    congr 1
    rw [npDot_self, npLinalgNorm,
      Real.mul_self_sqrt (by exact_mod_cast sumSquares_nonneg q)]
    rw [div_self]
    exact_mod_cast h1

/-- Witness for `similarity_unguarded_division` on the vector `[1]`. -/
theorem similarity_unguarded_division_witness :
    sumSquares [(1:ℚ)] ≠ 0 ∧
      similaritySearchValue [(1:ℚ)] [(1:ℚ)] = some 1 := by
  refine ⟨by norm_num [sumSquares], ?_⟩
  exact (similarity_unguarded_division [(1:ℚ)] [(1:ℚ)]).2.2
    (by norm_num [sumSquares])

lemma ceil_div_mul_ge (n step : ℕ) (h : 0 < step) :
    n ≤ ((n + step - 1) / step) * step := by
  have hd := Nat.div_add_mod (n + step - 1) step
  have hr : (n + step - 1) % step < step := Nat.mod_lt _ h
  have hc : ((n + step - 1) / step) * step = step * ((n + step - 1) / step) :=
    Nat.mul_comm _ _
  omega

lemma lt_ceil_div_mul_lt (n step j : ℕ) (h : 0 < step)
    (hj : j < (n + step - 1) / step) : j * step < n := by
  have h2 : j + 1 ≤ (n + step - 1) / step := hj
  have h3 : (j + 1) * step ≤ ((n + step - 1) / step) * step :=
    Nat.mul_le_mul_right _ h2
  have h4 : ((n + step - 1) / step) * step ≤ n + step - 1 :=
    Nat.div_mul_le_self _ _
  have h5 : (j + 1) * step = j * step + step := Nat.succ_mul _ _
  omega

lemma div_lt_ceil_div (n step k : ℕ) (h : 0 < step) (hk : k < n) :
    k / step < (n + step - 1) / step := by
  have h1 : (k / step) * step ≤ k := Nat.div_mul_le_self _ _
  have h2 : n ≤ ((n + step - 1) / step) * step := ceil_div_mul_ge n step h
  have h3 : (k / step) * step < ((n + step - 1) / step) * step := by omega
  exact Nat.lt_of_mul_lt_mul_right h3

lemma chunkWordWindows_length (ws : List String) (size ov : ℕ) :
    (chunkWordWindows ws size ov).length
      = (ws.length + (size - ov) - 1) / (size - ov) := by
  simp [chunkWordWindows, chunkStarts]

lemma chunkWordWindows_getD (ws : List String) (size ov j : ℕ)
    (hj : j < (chunkWordWindows ws size ov).length) :
    (chunkWordWindows ws size ov).getD j []
      = (ws.drop (j * (size - ov))).take size := by
  unfold chunkWordWindows chunkStarts at hj ⊢
  simp only [List.length_map, List.length_range] at hj
  rw [List.getD_eq_getElem?_getD, List.getElem?_map, List.getElem?_map,
    List.getElem?_range hj]
  rfl

/-- **C5 counterexample.** On the ten distinct words `a … j` with chunk
size 5 and overlap 2, `_chunk_text` returns four chunks whose final pair
shares exactly one word (`j`), not two, so "consecutive chunks overlap by
exactly `overlap` words" fails as stated. -/
theorem chunk_text_overlap_counterexample :
    5 < (pySplit "a b c d e f g h i j").length ∧
    chunkText "a b c d e f g h i j" 5 2
        = ["a b c d e", "d e f g h", "g h i j", "j"] ∧
    ¬ (∀ p ∈ (chunkText "a b c d e f g h i j" 5 2).zip
          (chunkText "a b c d e f g h i j" 5 2).tail,
        (pySplit p.1).drop ((pySplit p.1).length - 2)
          = (pySplit p.2).take 2) :=
  ⟨by decide, by decide, by decide⟩

/-- **C5 (amended).** For `overlap < chunk_size`: when the word count is at
most `chunk_size`, `_chunk_text` returns the whole text as a single chunk;
otherwise it returns the space-joins of the word windows, where every
window has at most `chunk_size` words and is non-empty, window `j` is
exactly `words[j*step : j*step + chunk_size]` with `step = chunk_size -
overlap`, consecutive windows overlap by exactly `overlap` words whenever
the earlier window is full (a truncated earlier window may share fewer),
and every word of the input is covered in place by some window. -/
theorem chunk_text_window_properties (text : String) (size ov : ℕ)
    (hov : ov < size) :
    ((pySplit text).length ≤ size → chunkText text size ov = [text]) ∧
    (size < (pySplit text).length →
      chunkText text size ov
        = ((chunkWordWindows (pySplit text) size ov).map
            (fun w => " ".intercalate w)).filter (fun c => c ≠ "")) ∧
    (∀ w ∈ chunkWordWindows (pySplit text) size ov,
      w.length ≤ size ∧ w ≠ []) ∧
    (∀ j, j < (chunkWordWindows (pySplit text) size ov).length →
      (chunkWordWindows (pySplit text) size ov).getD j []
        = ((pySplit text).drop (j * (size - ov))).take size) ∧
    (∀ j, j + 1 < (chunkWordWindows (pySplit text) size ov).length →
      ((chunkWordWindows (pySplit text) size ov).getD j []).length = size →
      ((chunkWordWindows (pySplit text) size ov).getD j []).drop
          (((chunkWordWindows (pySplit text) size ov).getD j []).length - ov)
        = ((chunkWordWindows (pySplit text) size ov).getD (j + 1) []).take ov) ∧
    (∀ k, k < (pySplit text).length →
      ∃ j, j < (chunkWordWindows (pySplit text) size ov).length ∧
        j * (size - ov) ≤ k ∧ k < j * (size - ov) + size ∧
        ((chunkWordWindows (pySplit text) size ov).getD j []).getD
            (k - j * (size - ov)) "" = (pySplit text).getD k "") := by
  set ws := pySplit text with hws
  set step := size - ov with hstep
  have hstep0 : 0 < step := by omega
  refine ⟨?_, ?_, ?_, chunkWordWindows_getD ws size ov, ?_, ?_⟩
  · intro h
    simp only [chunkText, ← hws]
    rw [if_pos h]
  · intro h
    simp only [chunkText, ← hws]
    rw [if_neg (by omega)]
  · intro w hw
    rcases List.mem_map.mp hw with ⟨i, hi, rfl⟩
    rcases List.mem_map.mp hi with ⟨j, hj, rfl⟩
    have hj' : j < (ws.length + step - 1) / step := by
      have := List.mem_range.mp hj
      simpa [← hstep] using this
    have hlt : j * step < ws.length := lt_ceil_div_mul_lt _ _ _ hstep0 hj'
    constructor
    · rw [List.length_take]
      exact min_le_left _ _
    · have hlen : ((ws.drop (j * (size - ov))).take size).length
          = min size (ws.length - j * (size - ov)) := by
        rw [List.length_take, List.length_drop]
      intro hnil
      rw [hnil] at hlen
      simp only [List.length_nil] at hlen
      rcases Nat.min_eq_zero_iff.mp hlen.symm with h0 | h0
      · omega
      · rw [← hstep] at h0
        omega
  · intro j hj hfull
    have hj1 : j + 1 < (chunkWordWindows ws size ov).length := hj
    have hjlt : j < (chunkWordWindows ws size ov).length := by omega
    rw [chunkWordWindows_getD ws size ov j hjlt] at hfull
    rw [chunkWordWindows_getD ws size ov j hjlt,
      chunkWordWindows_getD ws size ov (j + 1) hj1, hfull]
    rw [List.drop_take, List.drop_drop]
    have h1 : size - (size - ov) = ov := by omega
    have h2 : j * step + (size - ov) = (j + 1) * step := by
      rw [Nat.succ_mul]
    rw [h1, h2, List.take_take, min_eq_left (by omega)]
  · intro k hk
    have hjb : k / step < (chunkWordWindows ws size ov).length := by
      rw [chunkWordWindows_length, ← hstep]
      exact div_lt_ceil_div _ _ _ hstep0 hk
    have hcomm : k / step * step = step * (k / step) := Nat.mul_comm _ _
    have hdm := Nat.div_add_mod k step
    have hmod : k % step < step := Nat.mod_lt _ hstep0
    refine ⟨k / step, hjb, ?_, ?_, ?_⟩
    · exact Nat.div_mul_le_self k step
    · omega
    · rw [chunkWordWindows_getD ws size ov _ hjb]
      have hik : k / step * step + (k - k / step * step) = k := by omega
      have hilt : k - k / step * step < size := by omega
      rw [List.getD_eq_getElem?_getD, List.getD_eq_getElem?_getD,
        List.getElem?_take, if_pos hilt, List.getElem?_drop, hik]

/-- Witness for `chunk_text_window_properties` on the ten-word input with
chunk size 5 and overlap 2. -/
theorem chunk_text_window_properties_witness :
    (2 : ℕ) < 5 ∧
    chunkText "a b c d e f g h i j" 5 2
      = ((chunkWordWindows (pySplit "a b c d e f g h i j") 5 2).map
          (fun w => " ".intercalate w)).filter (fun c => c ≠ "") ∧
    ((chunkWordWindows (pySplit "a b c d e f g h i j") 5 2).getD 0 []).drop
        (((chunkWordWindows (pySplit "a b c d e f g h i j") 5 2).getD 0
          []).length - 2)
      = ((chunkWordWindows (pySplit "a b c d e f g h i j") 5 2).getD 1
          []).take 2 := by
  refine ⟨by norm_num, ?_, ?_⟩
  · exact (chunk_text_window_properties "a b c d e f g h i j" 5 2
      (by norm_num)).2.1 (by decide)
  · exact (chunk_text_window_properties "a b c d e f g h i j" 5 2
      (by norm_num)).2.2.2.2.1 0 (by decide) (by decide)

/-- **C6 counterexample.** With no credential configured,
`AnthropicLLMService.analyze_text` does not return the claimed placeholder
(empty skills, "Unknown", empty responsibilities, 0.5): it returns the
hard-coded analysis with four skills and experience level "Senior". -/
theorem analyze_text_fallback_counterexample :
    anthropicAnalyzeText none "We need a Go engineer" ≠ mainFallbackAnalysis ∧
    (anthropicAnalyzeText none "We need a Go engineer").required_skills
        = ["Python", "FastAPI", "React", "AWS"] ∧
    (anthropicAnalyzeText none "We need a Go engineer").experience_level
        = "Senior" := by
  refine ⟨?_, rfl, rfl⟩
  intro h
  have h2 := congrArg AnalysisDict.experience_level h
  simp only [anthropicAnalyzeText, hardcodedAnalysis, mainFallbackAnalysis]
    at h2
  exact absurd h2 (by decide)

/-- **C6 (amended).** With no credential, `analyze_text` does not fail and
returns the fixed hard-coded analysis (skills Python/FastAPI/React/AWS,
level "Senior", three responsibilities, threshold 0.7) regardless of the
input; the placeholder with empty skills, "Unknown", empty
responsibilities and threshold 0.5 is produced by `main.py`'s
`handle_tool_call` only when the analysis raises; on success the handler
returns the analysis itself. -/
theorem analyze_text_fallback (apiKey : Option String) (text : String) :
    anthropicAnalyzeText apiKey text = hardcodedAnalysis ∧
    hardcodedAnalysis ≠ mainFallbackAnalysis ∧
    (∀ (jd err : String), jd ≠ "" →
      handleAnalyzeJobDescription (some jd) (.error err)
        = .fallbackResult mainFallbackAnalysis
            "LLM analysis failed, using fallback") ∧
    (∀ (jd : String) (a : AnalysisDict), jd ≠ "" →
      handleAnalyzeJobDescription (some jd) (.ok a) = .analysisResult a) := by
  refine ⟨rfl, ?_, ?_, ?_⟩
  · intro h
    have h2 := congrArg AnalysisDict.experience_level h
    simp only [hardcodedAnalysis, mainFallbackAnalysis] at h2
    exact absurd h2 (by decide)
  · intro jd err hne
    simp [handleAnalyzeJobDescription, hne]
  · intro jd a hne
    simp [handleAnalyzeJobDescription, hne]

/-- Witness for `analyze_text_fallback` on a concrete job description. -/
theorem analyze_text_fallback_witness :
    anthropicAnalyzeText none "job text" = hardcodedAnalysis ∧
    handleAnalyzeJobDescription (some "job text") (.error "boom")
      = .fallbackResult mainFallbackAnalysis
          "LLM analysis failed, using fallback" := by
  refine ⟨(analyze_text_fallback none "job text").1, ?_⟩
  exact (analyze_text_fallback none "job text").2.2.1 "job text" "boom"
    (by decide)

/-- **C7.** The searchable text derived from a `ProfileData` payload is the
`". "`-join of the recognized fields rendered in the fixed order title,
company, position, description, skills, achievements, responsibilities,
institution, degree, field_of_study, name, level, absent fields skipped;
in particular `{"title": "Eng", "skills": ["Go", "Rust"]}` derives exactly
`"Eng. Skills: Go, Rust"`, and the empty payload derives `""`. -/
theorem searchable_text_field_order :
    (∀ d : ProfileDataPayload,
      generate_searchable_text_from_profile_data d
        = ". ".intercalate (claimSearchableParts d)) ∧
    generate_searchable_text_from_profile_data exampleProfilePayload
        = "Eng. Skills: Go, Rust" ∧
    generate_searchable_text_from_profile_data {} = "" := by
  refine ⟨?_, by decide, by decide⟩
  intro d
  rcases d with ⟨t, c, p, desc, sk, ach, resp, inst, deg, fos, nm, lv⟩
  rcases sk with _ | (s | l) <;> rcases ach with _ | (s' | l') <;>
    rcases resp with _ | (s'' | l'') <;> rfl

/-- **C8.** `search_matching_resumes` rejects a missing or empty job
description, and a `top_k` that is not an integer in `[1, 20]`, with an
error tool response (`is_error=True`) before any search executes: in
those cases `execute` returns an `errorResponse` and never reaches the
`searchExecuted` step that performs embedding and similarity search. -/
theorem search_tool_validation (args : SearchToolArguments) :
    ((args.job_description = none ∨ args.job_description = some "") →
      searchMatchingResumesExecute args
        = .errorResponse "Error: job_description is required" true) ∧
    (∀ (jd : String) (v : JsonArg),
      args.job_description = some jd → jd ≠ "" → args.top_k = some v →
      (v.isInstanceInt = false ∨ v.intVal < 1 ∨ 20 < v.intVal) →
      searchMatchingResumesExecute args
        = .errorResponse "Error: top_k must be an integer between 1 and 20"
            true) := by
  constructor
  · intro h
    rcases h with h | h <;> simp [searchMatchingResumesExecute, h]
  · intro jd v hjd hne htop hbad
    have hcond : (!v.isInstanceInt || decide (v.intVal < 1) ||
        decide (20 < v.intVal)) = true := by
      rcases hbad with h | h | h <;> simp [h]
    simp [searchMatchingResumesExecute, hjd, hne, htop, hcond]

/-- Witness for `search_tool_validation`: `top_k = 25` and an empty job
description are both rejected before any search. -/
theorem search_tool_validation_witness :
    searchMatchingResumesExecute
        { job_description := some "Need a dev", top_k := some (.jint 25) }
      = .errorResponse "Error: top_k must be an integer between 1 and 20"
          true ∧
    searchMatchingResumesExecute { job_description := some "" }
      = .errorResponse "Error: job_description is required" true := by
  constructor
  · exact (search_tool_validation
      { job_description := some "Need a dev", top_k := some (.jint 25) }).2
      "Need a dev" (.jint 25) rfl (by decide) rfl (by norm_num [JsonArg.intVal])
  · exact (search_tool_validation { job_description := some "" }).1
      (Or.inr rfl)

/-- **C9.** With no LLM credential the degraded generation path is
deterministic: `generate_resume_from_source` yields exactly the locally
rendered markdown, which depends only on the resume-source payload (not on
the job description, match summary, stream flag, or anything else), so two
calls with the same payload are byte-identical; `analyze_text` returns the
same fixed analysis on every call.  The renderer is exercised on a
concrete payload. -/
theorem degraded_generation_deterministic :
    (∀ (jd jd' summaryJ summaryJ' : String) (stream stream' : Bool)
        (src : ResumeSource),
      anthropicGenerateResumeFromSource none jd src summaryJ stream
        = anthropicGenerateResumeFromSource none jd' src summaryJ' stream') ∧
    (∀ (src : ResumeSource) (jd summaryJ : String) (stream : Bool),
      anthropicGenerateResumeFromSource none jd src summaryJ stream
        = [render_resume_from_source src]) ∧
    (∀ t t' : String,
      anthropicAnalyzeText none t = anthropicAnalyzeText none t') ∧
    anthropicGenerateResumeFromSource none "any jd" exampleResumeSource
        "{}" true
      = ["# Resume\n## Key Skills\n- Go, Rust\n"] := by
  refine ⟨fun _ _ _ _ _ _ _ => rfl, fun _ _ _ _ => rfl, fun _ _ => rfl, ?_⟩
  decide

/-- **C10.** The TXT parser's encoding cascade never raises: Latin-1
decoding succeeds on every byte sequence, so the decoded text is the
strict UTF-8 decoding when that succeeds and the byte-identity Latin-1
decoding otherwise — the `cp1252` attempt and the final errors-ignoring
fallback are unreachable — and `_parse_txt` fails (with a parsing error)
exactly when the decoded text strips to nothing. -/
theorem parse_txt_encoding_cascade (bs : List PyByte) :
    (latin1Decode bs).isSome ∧
    parse_txt_bytes bs
      = (if pyStrip ((utf8Decode bs).getD (bs.map fun b => (b : ℕ))) = []
          then .error "Empty text file"
          else .ok ((utf8Decode bs).getD (bs.map fun b => (b : ℕ)))) ∧
    ((∃ msg, parse_txt_bytes bs = .error msg) ↔
      pyStrip ((utf8Decode bs).getD (bs.map fun b => (b : ℕ))) = []) := by
  have hmain : parse_txt_bytes bs
      = (if pyStrip ((utf8Decode bs).getD (bs.map fun b => (b : ℕ))) = []
          then .error "Empty text file"
          else .ok ((utf8Decode bs).getD (bs.map fun b => (b : ℕ)))) := by
    rw [parse_txt_bytes]
    cases h : utf8Decode bs with
    | some t => simp [h]
    | none => simp [h, latin1Decode]
  refine ⟨rfl, hmain, ?_⟩
  rw [hmain]
  constructor
  · rintro ⟨msg, hmsg⟩
    by_contra hne
    rw [if_neg hne] at hmsg
    exact Except.noConfusion hmsg
  · intro h
    exact ⟨"Empty text file", by rw [if_pos h]⟩

end JcusLink
